import Mathlib

/-!
Verification of the reliable-multicast protocol layer in
branches/MCAST_REDUX/dds/DCPS/transport/multicast/ReliableMulticast.cpp.

The embedding models the protocol state of a ReliableMulticast data link
(peer identities, per-peer sequence trackers, the NAK history ledger, the
acked flag and the last received transport header) and each handler or
timer phase as a pure function from state to state paired with the list
of externally visible effects (control messages sent, watchdog
cancellations, transport notifications, log events).

Peer identities and sequence numbers are fixed-width unsigned integers in
the source; the claims under study only compare them for equality and
order within a bounded window, so they are modelled as Nat.
-/

namespace RM

/-- Multicast peer identity (MulticastPeer, a fixed-width id). -/
abbrev MulticastPeer := Nat

/-- Sequence number (MulticastSequence). -/
abbrev MulticastSequence := Nat

/-- Time value (ACE_Time_Value), modelled as a Nat tick count; the
subtraction `deadline -= nak_timeout_` is Nat truncated subtraction. -/
abbrev TimeValue := Nat

/-- Configuration durations consumed by the link (MulticastConfiguration). -/
structure MulticastConfiguration where
  nak_interval_ : TimeValue
  nak_timeout_ : TimeValue
  syn_interval_ : TimeValue
  syn_timeout_ : TimeValue
deriving Repr, DecidableEq

/-- Transport header: the fields of TransportHeader consulted by
header_received (sending peer and datagram sequence number). -/
structure TransportHeader where
  source_ : MulticastPeer
  sequence_ : MulticastSequence
deriving Repr, DecidableEq

/-- Modelled from the spec: the class DisjointSequence is not part of the
reviewed source file (only its uses in ReliableMulticast.cpp are); its
state is taken from spec section 3: a low-water mark, a high-water mark,
and an ordered list of disjoint closed gap ranges with
low <= a <= b < high. -/
structure DisjointSequence where
  low : MulticastSequence
  high : MulticastSequence
  gaps : List (MulticastSequence × MulticastSequence)
deriving Repr, DecidableEq

namespace DisjointSequence

/-- Modelled from the spec: the DisjointSequence constructor taking a
baseline sequence number seeds both water marks with it and starts with
no gaps. -/
def ofBaseline (seq : MulticastSequence) : DisjointSequence :=
  { low := seq, high := seq, gaps := [] }

/-- A sequence number lies inside one of the gap ranges. -/
def inGaps (gaps : List (MulticastSequence × MulticastSequence))
    (seq : MulticastSequence) : Bool :=
  gaps.any (fun r => decide (r.1 ≤ seq) && decide (seq ≤ r.2))

/-- Modelled from the spec: a sequence number counts as already recorded
(resolved) when it is at or below the high-water mark and not inside a
gap; numbers below low are resolved (delivered or permanently abandoned)
and also count as recorded. -/
def received (ds : DisjointSequence) (seq : MulticastSequence) : Bool :=
  decide (seq ≤ ds.high) && !(inGaps ds.gaps seq)

/-- Remove one sequence number from a closed range, splitting or
shrinking it; ranges not covering the number are kept whole. -/
def removeFromRange (seq : MulticastSequence)
    (r : MulticastSequence × MulticastSequence) :
    List (MulticastSequence × MulticastSequence) :=
  if decide (r.1 ≤ seq) && decide (seq ≤ r.2) then
    (if r.1 < seq then [(r.1, seq - 1)] else []) ++
    (if seq < r.2 then [(seq + 1, r.2)] else [])
  else [r]

/-- Modelled from the spec: update(seq) records seq as received; it
extends high when seq is beyond it (opening a gap over any numbers
skipped), shrinks or splits a gap covering seq, and returns whether seq
had not already been recorded (false means duplicate or stale). -/
def update (ds : DisjointSequence) (seq : MulticastSequence) :
    DisjointSequence × Bool :=
  if ds.high < seq then
    ({ low := ds.low
       high := seq
       gaps := ds.gaps ++ (if ds.high + 1 < seq then [(ds.high + 1, seq - 1)] else []) },
     true)
  else if inGaps ds.gaps seq then
    ({ ds with gaps := ((ds.gaps.map (removeFromRange seq)).flatten) }, true)
  else
    (ds, false)

/-- Modelled from the spec: skip(floor) advances the low-water mark to
floor (never decreasing it), discards every gap entirely below floor and
clips a gap straddling it; the high-water mark is raised to floor when
skipping past it, establishing a fresh baseline. -/
def skip (ds : DisjointSequence) (floor : MulticastSequence) : DisjointSequence :=
  { low := max ds.low floor
    high := max ds.high floor
    gaps := (ds.gaps.filter (fun r => decide (floor ≤ r.2))).map
      (fun r => (max r.1 floor, r.2)) }

/-- Modelled from the spec: disjoint() reports whether any gap exists. -/
def disjoint (ds : DisjointSequence) : Bool :=
  !ds.gaps.isEmpty

/-- Modelled from the spec: depth() is the total count of missing
sequence numbers (used only in a log message). -/
def depth (ds : DisjointSequence) : Nat :=
  (ds.gaps.map (fun r => r.2 + 1 - r.1)).sum

end DisjointSequence

/-- The per-link sequence map (SequenceMap, a std::map keyed by peer),
modelled as an association list with at most one entry per peer. -/
abbrev SequenceMap := List (MulticastPeer × DisjointSequence)

namespace SequenceMap

/-- Lookup of a peer's tracker (SequenceMap::find). -/
def find (m : SequenceMap) (p : MulticastPeer) : Option DisjointSequence :=
  (m.find? (fun e => e.1 == p)).map (fun e => e.2)

/-- Insertion mirroring std::map::insert: a present key is left exactly
as it was; an absent key is added. -/
def insertIfAbsent (m : SequenceMap) (p : MulticastPeer)
    (ds : DisjointSequence) : SequenceMap :=
  if (find m p).isSome then m else m ++ [(p, ds)]

/-- Replace the tracker stored under a present key (the in-place mutation
of the map entry through an iterator). -/
def set (m : SequenceMap) (p : MulticastPeer) (ds : DisjointSequence) :
    SequenceMap :=
  m.map (fun e => if e.1 == p then (p, ds) else e)

end SequenceMap

/-- One NakRequest: the remote peer and the high-water mark observed when
the repair request was issued. -/
abbrev NakRequest := MulticastPeer × MulticastSequence

/-- The NAK history ledger (NakHistory, a std::multimap keyed by
timestamp), modelled as a timestamp-ordered list of entries. -/
abbrev NakHistory := List (TimeValue × NakRequest)

/-- The four control messages of the protocol with their wire fields. -/
inductive ControlMsg where
  | syn (srcPeer dstPeer : MulticastPeer)
  | synack (srcPeer dstPeer : MulticastPeer)
  | nak (srcPeer dstPeer : MulticastPeer) (low high : MulticastSequence)
  | nakack (srcPeer dstPeer : MulticastPeer) (low high : MulticastSequence)
deriving Repr, DecidableEq

/-- Externally visible effects of a handler or timer phase. -/
inductive Event where
  | sendControl (m : ControlMsg)
  | cancelSynWatchdog
  | checkFullyAssociation
  | skipCall (peer : MulticastPeer) (floor : MulticastSequence)
  | logSeqNotFound (peer : MulticastPeer)
  | logUnknownSubmessage (id : Nat)
  | ackDelivered
  | dataDelivered
deriving Repr, DecidableEq

/-- Protocol state of one ReliableMulticast data link. -/
structure ReliableMulticast where
  local_peer_ : MulticastPeer
  remote_peer_ : MulticastPeer
  config_ : MulticastConfiguration
  acked_ : Bool
  sequences_ : SequenceMap
  nak_history_ : NakHistory
  recvd_header_ : TransportHeader
deriving Repr, DecidableEq

/-- The ReliableMulticast constructor: the acked flag starts false and
the containers start empty (recvd_header_ is default-constructed). -/
def mkReliableMulticast (local_peer remote_peer : MulticastPeer)
    (config : MulticastConfiguration) : ReliableMulticast :=
  { local_peer_ := local_peer
    remote_peer_ := remote_peer
    config_ := config
    acked_ := false
    sequences_ := []
    nak_history_ := []
    recvd_header_ := { source_ := 0, sequence_ := 0 } }

/-- ReliableMulticast::acked. -/
def acked (s : ReliableMulticast) : Bool :=
  s.acked_

/-- ReliableMulticast::header_received: store the header, then look up
the source peer; an unknown peer is accepted; a known peer's tracker is
updated and the update result (false on a duplicate) is returned. -/
def header_received (hdr : TransportHeader) (s : ReliableMulticast) :
    ReliableMulticast × Bool :=
  match SequenceMap.find s.sequences_ hdr.source_ with
  | none => ({ s with recvd_header_ := hdr }, true)
  | some ds =>
    let r := ds.update hdr.sequence_
    ({ s with
        recvd_header_ := hdr
        sequences_ := SequenceMap.set s.sequences_ hdr.source_ r.1 }, r.2)

/-- ReliableMulticast::send_synack: send a MULTICAST_SYNACK carrying
(local_peer_, remote_peer) back to the requester. -/
def send_synack (remote_peer : MulticastPeer) (s : ReliableMulticast) :
    ReliableMulticast × List Event :=
  (s, [Event.sendControl (ControlMsg.synack s.local_peer_ remote_peer)])

/-- ReliableMulticast::syn_received: the message carries the sender and
the intended destination; a message not destined for the local peer is
ignored; otherwise the sender is inserted into the sequence map (a
present entry is untouched) with a baseline taken from the sequence
number of the carrying header, and a SYNACK is always sent back. -/
def syn_received (remote_peer local_peer : MulticastPeer)
    (s : ReliableMulticast) : ReliableMulticast × List Event :=
  if local_peer ≠ s.local_peer_ then (s, [])
  else
    let baseline := DisjointSequence.ofBaseline s.recvd_header_.sequence_
    let s1 := { s with sequences_ := SequenceMap.insertIfAbsent s.sequences_ remote_peer baseline }
    send_synack remote_peer s1

/-- ReliableMulticast::send_syn: send a MULTICAST_SYN carrying
(local_peer_, remote_peer_). -/
def send_syn (s : ReliableMulticast) : ReliableMulticast × List Event :=
  (s, [Event.sendControl (ControlMsg.syn s.local_peer_ s.remote_peer_)])

/-- ReliableMulticast::synack_received: a message not destined for the
local peer is ignored; otherwise the SYN watchdog is cancelled, the
acked flag is set, and the transport is told to re-evaluate pending
associations. -/
def synack_received (remote_peer local_peer : MulticastPeer)
    (s : ReliableMulticast) : ReliableMulticast × List Event :=
  if local_peer ≠ s.local_peer_ then (s, [])
  else
    ({ s with acked_ := true },
     [Event.cancelSynWatchdog, Event.checkFullyAssociation])

/-- ReliableMulticast::nak_received is an unimplemented TODO stub in the
source: it ignores the message entirely. -/
def nak_received (remote_peer local_peer : MulticastPeer)
    (low high : MulticastSequence) (s : ReliableMulticast) :
    ReliableMulticast × List Event :=
  (s, [])

/-- ReliableMulticast::send_nak: send a MULTICAST_NAK carrying
(local_peer_, remote_peer, low, high). -/
def send_nak (remote_peer : MulticastPeer) (low high : MulticastSequence)
    (s : ReliableMulticast) : ReliableMulticast × List Event :=
  (s, [Event.sendControl (ControlMsg.nak s.local_peer_ remote_peer low high)])

/-- ReliableMulticast::nakack_received is an unimplemented TODO stub in
the source: it ignores the message entirely. -/
def nakack_received (remote_peer local_peer : MulticastPeer)
    (low high : MulticastSequence) (s : ReliableMulticast) :
    ReliableMulticast × List Event :=
  (s, [])

/-- ReliableMulticast::send_nakack is an unimplemented TODO stub in the
source: nothing is sent. -/
def send_nakack (remote_peer : MulticastPeer) (low high : MulticastSequence)
    (s : ReliableMulticast) : ReliableMulticast × List Event :=
  (s, [])

/-- The processing of one expired NakRequest inside
ReliableMulticast::expire_naks: a missing tracker is a logged error; a
tracker whose high-water mark is still below the recorded mark is
skipped forward to that mark; otherwise nothing happens. -/
def expireStep (m : SequenceMap) (req : NakRequest) :
    SequenceMap × List Event :=
  match SequenceMap.find m req.1 with
  | none => (m, [Event.logSeqNotFound req.1])
  | some ds =>
    if ds.high < req.2 then
      (SequenceMap.set m req.1 (ds.skip req.2), [Event.skipCall req.1 req.2])
    else (m, [])

/-- The loop of ReliableMulticast::expire_naks over the expired ledger
entries, in ledger order. -/
def expireLoop (m : SequenceMap) (reqs : List NakRequest) :
    SequenceMap × List Event :=
  match reqs with
  | [] => (m, [])
  | r :: rest =>
    let s1 := expireStep m r
    let s2 := expireLoop s1.1 rest
    (s2.1, s1.2 ++ s2.2)

/-- The expired range of the ledger at a given instant: the entries no
newer than now - nak_timeout_ (begin to upper_bound of the deadline in
the timestamp-ordered multimap). -/
def expiredOf (now : TimeValue) (s : ReliableMulticast) : NakHistory :=
  s.nak_history_.filter (fun e => decide (e.1 ≤ now - s.config_.nak_timeout_))

/-- ReliableMulticast::expire_naks: when the expired range is empty the
phase returns at once; otherwise each expired entry is processed by the
expiry step and the whole expired range is erased. -/
def expire_naks (now : TimeValue) (s : ReliableMulticast) :
    ReliableMulticast × List Event :=
  if (expiredOf now s).isEmpty then (s, [])
  else
    let r := expireLoop s.sequences_ ((expiredOf now s).map (fun e => e.2))
    ({ s with
        sequences_ := r.1
        nak_history_ :=
          s.nak_history_.filter (fun e => decide (now - s.config_.nak_timeout_ < e.1)) },
     r.2)

/-- The loop of ReliableMulticast::send_naks over the sequence map: a
peer with no gap is passed over; a peer with gaps yields one new ledger
entry (now, peer, high) and one MULTICAST_NAK per gap range. -/
def sendNaksLoop (lp : MulticastPeer) (now : TimeValue)
    (seqs : List (MulticastPeer × DisjointSequence)) :
    List (TimeValue × NakRequest) × List Event :=
  match seqs with
  | [] => ([], [])
  | e :: rest =>
    let r := sendNaksLoop lp now rest
    if e.2.disjoint then
      ((now, e.1, e.2.high) :: r.1,
       e.2.gaps.map (fun g => Event.sendControl (ControlMsg.nak lp e.1 g.1 g.2))
         ++ r.2)
    else r

/-- ReliableMulticast::send_naks: walk the sequence map, record a ledger
entry and emit the NAK requests for every peer whose tracker is
disjoint. -/
def send_naks (now : TimeValue) (s : ReliableMulticast) :
    ReliableMulticast × List Event :=
  let r := sendNaksLoop s.local_peer_ now s.sequences_
  ({ s with nak_history_ := s.nak_history_ ++ r.1 }, r.2)

/-- An inbound sample as seen by the dispatcher: a control message with
parsed fields, a control message with an unknown submessage id, a sample
acknowledgment, or sample data. -/
inductive ReceivedSample where
  | control (m : ControlMsg)
  | controlUnknown (id : Nat)
  | sampleAck
  | data
deriving Repr, DecidableEq

/-- ReliableMulticast::sample_received: route control submessages to
their handlers; an unknown submessage is logged and dropped; SAMPLE_ACK
and data samples are handed to the base-class delivery path, which is
outside this protocol layer and leaves its state untouched. -/
def sample_received (sm : ReceivedSample) (s : ReliableMulticast) :
    ReliableMulticast × List Event :=
  match sm with
  | ReceivedSample.control (ControlMsg.syn src dst) => syn_received src dst s
  | ReceivedSample.control (ControlMsg.synack src dst) => synack_received src dst s
  | ReceivedSample.control (ControlMsg.nak src dst low high) =>
      nak_received src dst low high s
  | ReceivedSample.control (ControlMsg.nakack src dst low high) =>
      nakack_received src dst low high s
  | ReceivedSample.controlUnknown id => (s, [Event.logUnknownSubmessage id])
  | ReceivedSample.sampleAck => (s, [Event.ackDelivered])
  | ReceivedSample.data => (s, [Event.dataDelivered])

/-- A sample configuration used by concrete instantiations. -/
def cfgEx : MulticastConfiguration :=
  { nak_interval_ := 10, nak_timeout_ := 30, syn_interval_ := 5, syn_timeout_ := 60 }

/-- A sample tracker for a peer that received sequences 1, 2, 4, 6: the
high-water mark is 6 and the gaps are the singletons 3 and 5. -/
def dsGap : DisjointSequence :=
  { low := 1, high := 6, gaps := [(3, 3), (5, 5)] }

/-- A sample link state: local peer 1, with peer 7 tracked by dsGap and
one ledger entry recorded at time 0 marking high-water 6. -/
def stEx : ReliableMulticast :=
  { local_peer_ := 1
    remote_peer_ := 2
    config_ := cfgEx
    acked_ := false
    sequences_ := [(7, dsGap)]
    nak_history_ := [(0, (7, 6))]
    recvd_header_ := { source_ := 7, sequence_ := 6 } }

/-- A sample link state with no tracked peers, whose last received
header carries sequence number 42 from peer 5. -/
def stFresh : ReliableMulticast :=
  { local_peer_ := 1
    remote_peer_ := 2
    config_ := cfgEx
    acked_ := false
    sequences_ := []
    nak_history_ := []
    recvd_header_ := { source_ := 5, sequence_ := 42 } }

theorem find_append_single (m : SequenceMap) (p : MulticastPeer)
    (ds : DisjointSequence) (h : SequenceMap.find m p = none) :
    SequenceMap.find (m ++ [(p, ds)]) p = some ds := by
  have hf : m.find? (fun e => e.1 == p) = none := by
    unfold SequenceMap.find at h
    exact Option.map_eq_none'.mp h
  unfold SequenceMap.find
  rw [List.find?_append, hf]
  simp [List.find?]

theorem insertIfAbsent_of_found (m : SequenceMap) (p : MulticastPeer)
    (ds ds' : DisjointSequence) (h : SequenceMap.find m p = some ds) :
    SequenceMap.insertIfAbsent m p ds' = m := by
  unfold SequenceMap.insertIfAbsent
  rw [h]
  rfl

theorem find_insertIfAbsent_new (m : SequenceMap) (p : MulticastPeer)
    (ds : DisjointSequence) (h : SequenceMap.find m p = none) :
    SequenceMap.find (SequenceMap.insertIfAbsent m p ds) p = some ds := by
  unfold SequenceMap.insertIfAbsent
  rw [h]
  exact find_append_single m p ds h

theorem filter_gt_of_filter_le_nil (dl : TimeValue) (l : NakHistory)
    (h : l.filter (fun e => decide (e.1 ≤ dl)) = []) :
    l.filter (fun e => decide (dl < e.1)) = l := by
  induction l with
  | nil => rfl
  | cons a t ih =>
    simp only [List.filter_cons] at h ⊢
    by_cases hc : a.1 ≤ dl
    · simp [hc] at h
    · have hlt : dl < a.1 := Nat.lt_of_not_le hc
      simp [hc] at h
      simpa [hlt] using h

theorem filter_le_of_filter_gt (dl : TimeValue) (l : NakHistory) :
    (l.filter (fun e => decide (dl < e.1))).filter
      (fun e => decide (e.1 ≤ dl)) = [] := by
  induction l with
  | nil => rfl
  | cons a t ih =>
    simp only [List.filter_cons]
    by_cases hc : dl < a.1
    · have hn : ¬ a.1 ≤ dl := Nat.not_le_of_lt hc
      simp [hc, hn, ih]
    · simp [hc, ih]

theorem expireLoop_fst (m : SequenceMap) (reqs : List NakRequest) :
    (expireLoop m reqs).1 =
      reqs.foldl (fun acc r => (expireStep acc r).1) m := by
  induction reqs generalizing m with
  | nil => rfl
  | cons r rest ih =>
    simp only [expireLoop, List.foldl_cons]
    exact ih (expireStep m r).1

theorem expire_naks_history_eq (now : TimeValue) (s : ReliableMulticast) :
    (expire_naks now s).1.nak_history_ =
      s.nak_history_.filter
        (fun e => decide (now - s.config_.nak_timeout_ < e.1)) := by
  by_cases hE : (expiredOf now s).isEmpty
  · rw [expire_naks, if_pos hE]
    have hnil : expiredOf now s = [] := by
      cases h : expiredOf now s with
      | nil => rfl
      | cons a t => rw [h] at hE; simp [List.isEmpty] at hE
    exact (filter_gt_of_filter_le_nil _ _ hnil).symm
  · rw [expire_naks, if_neg hE]

theorem expire_naks_sequences_eq (now : TimeValue) (s : ReliableMulticast) :
    (expire_naks now s).1.sequences_ =
      ((expiredOf now s).map (fun e => e.2)).foldl
        (fun acc r => (expireStep acc r).1) s.sequences_ := by
  by_cases hE : (expiredOf now s).isEmpty
  · rw [expire_naks, if_pos hE]
    have hnil : expiredOf now s = [] := by
      cases h : expiredOf now s with
      | nil => rfl
      | cons a t => rw [h] at hE; simp [List.isEmpty] at hE
    rw [hnil]
    rfl
  · rw [expire_naks, if_neg hE]
    exact expireLoop_fst _ _

theorem expire_naks_config_eq (now : TimeValue) (s : ReliableMulticast) :
    (expire_naks now s).1.config_ = s.config_ := by
  by_cases hE : (expiredOf now s).isEmpty
  · rw [expire_naks, if_pos hE]
  · rw [expire_naks, if_neg hE]

theorem expire_naks_acked_eq (now : TimeValue) (s : ReliableMulticast) :
    (expire_naks now s).1.acked_ = s.acked_ := by
  by_cases hE : (expiredOf now s).isEmpty
  · rw [expire_naks, if_pos hE]
  · rw [expire_naks, if_neg hE]

theorem sendNaksLoop_fst (lp : MulticastPeer) (now : TimeValue)
    (seqs : List (MulticastPeer × DisjointSequence)) :
    (sendNaksLoop lp now seqs).1 =
      (seqs.filter (fun e => e.2.disjoint)).map
        (fun e => (now, e.1, e.2.high)) := by
  induction seqs with
  | nil => rfl
  | cons e rest ih =>
    simp only [sendNaksLoop, List.filter_cons]
    by_cases hd : e.2.disjoint
    · simp [hd, ih]
    · simp [hd, ih]

theorem sendNaksLoop_snd (lp : MulticastPeer) (now : TimeValue)
    (seqs : List (MulticastPeer × DisjointSequence)) :
    (sendNaksLoop lp now seqs).2 =
      ((seqs.filter (fun e => e.2.disjoint)).map
        (fun e => e.2.gaps.map
          (fun g => Event.sendControl (ControlMsg.nak lp e.1 g.1 g.2)))).flatten := by
  induction seqs with
  | nil => rfl
  | cons e rest ih =>
    simp only [sendNaksLoop, List.filter_cons]
    by_cases hd : e.2.disjoint
    · simp [hd, ih]
    · simp [hd, ih]

theorem update_snd_eq (ds : DisjointSequence) (seq : MulticastSequence) :
    (ds.update seq).2 = !(ds.received seq) := by
  unfold DisjointSequence.update DisjointSequence.received
  by_cases h1 : ds.high < seq
  · have h2 : ¬ seq ≤ ds.high := Nat.not_le.mpr h1
    simp [h1, h2]
  · have h2 : seq ≤ ds.high := Nat.not_lt.mp h1
    by_cases h3 : DisjointSequence.inGaps ds.gaps seq
    · simp [h1, h2, h3]
    · simp [h1, h2, h3]

theorem header_received_acked_eq (hdr : TransportHeader)
    (s : ReliableMulticast) : (header_received hdr s).1.acked_ = s.acked_ := by
  unfold header_received
  cases SequenceMap.find s.sequences_ hdr.source_ <;> rfl

theorem syn_received_acked_eq (src dst : MulticastPeer)
    (s : ReliableMulticast) : (syn_received src dst s).1.acked_ = s.acked_ := by
  unfold syn_received
  by_cases h : dst ≠ s.local_peer_
  · rw [if_pos h]
  · rw [if_neg h]
    rfl

theorem synack_received_acked_eq (src dst : MulticastPeer)
    (s : ReliableMulticast) :
    (synack_received src dst s).1.acked_ =
      (if dst = s.local_peer_ then true else s.acked_) := by
  unfold synack_received
  by_cases h : dst = s.local_peer_
  · rw [if_neg (not_not_intro h), if_pos h]
  · rw [if_pos h, if_neg h]

theorem synack_received_events_eq (src dst : MulticastPeer)
    (s : ReliableMulticast) :
    (synack_received src dst s).2 =
      (if dst = s.local_peer_
        then [Event.cancelSynWatchdog, Event.checkFullyAssociation]
        else []) := by
  unfold synack_received
  by_cases h : dst = s.local_peer_
  · rw [if_neg (not_not_intro h), if_pos h]
  · rw [if_pos h, if_neg h]

theorem sample_received_acked_mono (sm : ReceivedSample)
    (s : ReliableMulticast) :
    (sample_received sm s).1.acked_ = s.acked_ ∨
      (sample_received sm s).1.acked_ = true := by
  cases sm with
  | control m =>
    cases m with
    | syn src dst => exact Or.inl (syn_received_acked_eq src dst s)
    | synack src dst =>
      have hs : sample_received
          (ReceivedSample.control (ControlMsg.synack src dst)) s =
          synack_received src dst s := rfl
      by_cases hd : dst = s.local_peer_
      · exact Or.inr (by rw [hs, synack_received_acked_eq, if_pos hd])
      · exact Or.inl (by rw [hs, synack_received_acked_eq, if_neg hd])
    | nak src dst low high => exact Or.inl rfl
    | nakack src dst low high => exact Or.inl rfl
  | controlUnknown id => exact Or.inl rfl
  | sampleAck => exact Or.inl rfl
  | data => exact Or.inl rfl

/-- C1: the claim that nakack_received advances the requester's tracker
via skip(sender, high) fails on the code: the handler is an
unimplemented TODO stub, so a repair-ack from peer 7 for range (3, 6]
addressed to the local peer leaves the link state untouched and produces
no effect, even though a skip to 6 would have changed peer 7's
tracker. -/
theorem nakack_received_is_stub :
    nakack_received 7 1 3 6 stEx = (stEx, []) ∧
    (nakack_received 7 1 3 6 stEx).1.sequences_ = [(7, dsGap)] ∧
    DisjointSequence.skip dsGap 6 ≠ dsGap :=
  ⟨rfl, rfl, by decide⟩

/-- C2: header_received accepts a header whose source peer is unknown;
for a known source peer it returns true exactly when the header's
sequence number had not already been recorded in that peer's tracker,
and false for a duplicate. -/
theorem header_received_spec (hdr : TransportHeader) (s : ReliableMulticast) :
    (SequenceMap.find s.sequences_ hdr.source_ = none →
      (header_received hdr s).2 = true) ∧
    (∀ ds, SequenceMap.find s.sequences_ hdr.source_ = some ds →
      (header_received hdr s).2 = !(DisjointSequence.received ds hdr.sequence_)) := by
  constructor
  · intro h
    unfold header_received
    rw [h]
  · intro ds h
    unfold header_received
    rw [h]
    exact update_snd_eq ds hdr.sequence_

/-- Witness for header_received_spec: peer 9 is unknown to stEx and its
header is accepted; peer 7 is known and its update result for sequence 3
matches the recorded-status of 3 in its tracker. -/
theorem header_received_spec_witness :
    (header_received { source_ := 9, sequence_ := 4 } stEx).2 = true ∧
    (header_received { source_ := 7, sequence_ := 3 } stEx).2 =
      !(DisjointSequence.received dsGap 3) :=
  ⟨(header_received_spec { source_ := 9, sequence_ := 4 } stEx).1 rfl,
   (header_received_spec { source_ := 7, sequence_ := 3 } stEx).2 dsGap rfl⟩

/-- C3: the expire phase erases exactly the ledger entries at or past
the deadline; the surviving tracker map is the fold of the expiry step
over those entries in ledger order; and one expiry step on an entry
whose peer is tracked skips that peer's tracker to the entry's marked
high-water mark exactly when the current high-water mark is still below
it, and otherwise changes nothing and emits nothing. -/
theorem expire_naks_spec (now : TimeValue) (s : ReliableMulticast)
    (m : SequenceMap) (peer : MulticastPeer) (mh : MulticastSequence)
    (ds : DisjointSequence) (hfind : SequenceMap.find m peer = some ds) :
    (expire_naks now s).1.nak_history_ =
      s.nak_history_.filter
        (fun e => decide (now - s.config_.nak_timeout_ < e.1)) ∧
    (expire_naks now s).1.sequences_ =
      ((expiredOf now s).map (fun e => e.2)).foldl
        (fun acc r => (expireStep acc r).1) s.sequences_ ∧
    (ds.high < mh →
      expireStep m (peer, mh) =
        (SequenceMap.set m peer (ds.skip mh), [Event.skipCall peer mh])) ∧
    (¬ ds.high < mh → expireStep m (peer, mh) = (m, [])) := by
  refine ⟨expire_naks_history_eq now s, expire_naks_sequences_eq now s, ?_, ?_⟩
  · intro hlt
    simp [expireStep, hfind, hlt]
  · intro hge
    simp [expireStep, hfind, hge]

/-- Witness for expire_naks_spec: a ledger entry marking high-water 10
for peer 7, whose tracker still sits at high-water 6, is expired into a
skip of that tracker to 10. -/
theorem expire_naks_spec_witness :
    expireStep [(7, dsGap)] (7, 10) =
      (SequenceMap.set [(7, dsGap)] 7 (DisjointSequence.skip dsGap 10),
       [Event.skipCall 7 10]) :=
  ((expire_naks_spec 0 stEx [(7, dsGap)] 7 10 dsGap rfl).2.2.1) (by decide)

/-- C4: one run of the request phase appends to the ledger exactly one
entry (now, peer, high) for every peer whose tracker is disjoint, in map
order, and sends exactly one repair-request per gap range of each such
peer; peers whose trackers are not disjoint contribute no entry and no
message. -/
theorem send_naks_spec (now : TimeValue) (s : ReliableMulticast) :
    (send_naks now s).1.nak_history_ =
      s.nak_history_ ++
        (s.sequences_.filter (fun e => e.2.disjoint)).map
          (fun e => (now, e.1, e.2.high)) ∧
    (send_naks now s).2 =
      ((s.sequences_.filter (fun e => e.2.disjoint)).map
        (fun e => e.2.gaps.map
          (fun g => Event.sendControl
            (ControlMsg.nak s.local_peer_ e.1 g.1 g.2)))).flatten := by
  constructor
  · show s.nak_history_ ++ (sendNaksLoop s.local_peer_ now s.sequences_).1 = _
    rw [sendNaksLoop_fst]
  · show (sendNaksLoop s.local_peer_ now s.sequences_).2 = _
    rw [sendNaksLoop_snd]

/-- C5: the acked flag starts false at construction; a handshake-ack
sets it exactly when addressed to the local peer, cancelling the SYN
watchdog and notifying the transport; every other handler and phase
leaves it unchanged; and no dispatched sample ever resets it (the flag
either keeps its value or becomes true). -/
theorem acked_lifecycle (lp rp : MulticastPeer)
    (cfg : MulticastConfiguration) (s : ReliableMulticast)
    (hdr : TransportHeader) (src dst : MulticastPeer)
    (low high : MulticastSequence) (now : TimeValue)
    (sm : ReceivedSample) :
    acked (mkReliableMulticast lp rp cfg) = false ∧
    (synack_received src dst s).1.acked_ =
      (if dst = s.local_peer_ then true else s.acked_) ∧
    (synack_received src dst s).2 =
      (if dst = s.local_peer_
        then [Event.cancelSynWatchdog, Event.checkFullyAssociation]
        else []) ∧
    (header_received hdr s).1.acked_ = s.acked_ ∧
    (syn_received src dst s).1.acked_ = s.acked_ ∧
    (nak_received src dst low high s).1.acked_ = s.acked_ ∧
    (nakack_received src dst low high s).1.acked_ = s.acked_ ∧
    (send_syn s).1.acked_ = s.acked_ ∧
    (send_synack rp s).1.acked_ = s.acked_ ∧
    (send_nak rp low high s).1.acked_ = s.acked_ ∧
    (send_nakack rp low high s).1.acked_ = s.acked_ ∧
    (expire_naks now s).1.acked_ = s.acked_ ∧
    (send_naks now s).1.acked_ = s.acked_ ∧
    ((sample_received sm s).1.acked_ = s.acked_ ∨
      (sample_received sm s).1.acked_ = true) :=
  ⟨rfl, synack_received_acked_eq src dst s, synack_received_events_eq src dst s,
   header_received_acked_eq hdr s, syn_received_acked_eq src dst s,
   rfl, rfl, rfl, rfl, rfl, rfl,
   expire_naks_acked_eq now s, rfl,
   sample_received_acked_mono sm s⟩

/-- C6: a handshake-request addressed to the local peer from an unknown
sender registers the sender with a baseline taken from the carrying
header's sequence number, and exactly one handshake-ack addressed back
to the sender is sent. -/
theorem syn_received_registers_unknown (sender : MulticastPeer)
    (s : ReliableMulticast)
    (hnew : SequenceMap.find s.sequences_ sender = none) :
    SequenceMap.find (syn_received sender s.local_peer_ s).1.sequences_ sender =
      some (DisjointSequence.ofBaseline s.recvd_header_.sequence_) ∧
    (syn_received sender s.local_peer_ s).2 =
      [Event.sendControl (ControlMsg.synack s.local_peer_ sender)] := by
  unfold syn_received
  rw [if_neg (not_not_intro rfl)]
  exact ⟨find_insertIfAbsent_new _ _ _ hnew, rfl⟩

/-- Witness for syn_received_registers_unknown: peer 5 is unknown to
stFresh and gets registered with baseline 42, the sequence number of the
last received header, and a handshake-ack goes back to peer 5. -/
theorem syn_received_registers_unknown_witness :
    SequenceMap.find
        (syn_received 5 stFresh.local_peer_ stFresh).1.sequences_ 5 =
      some (DisjointSequence.ofBaseline stFresh.recvd_header_.sequence_) ∧
    (syn_received 5 stFresh.local_peer_ stFresh).2 =
      [Event.sendControl (ControlMsg.synack stFresh.local_peer_ 5)] :=
  syn_received_registers_unknown 5 stFresh rfl

/-- C7: the claim that nak_received retransmits still-retained samples
and answers with a repair-ack for the rest fails on the code: both
nak_received and send_nakack are unimplemented TODO stubs, so a
repair-request from peer 5 for range (3, 6] addressed to the local peer
is dropped with no retransmission and no repair-ack, and send_nakack
itself sends nothing. -/
theorem nak_received_is_stub :
    nak_received 5 1 3 6 stEx = (stEx, []) ∧
    send_nakack 5 3 6 stEx = (stEx, []) :=
  ⟨rfl, rfl⟩

/-- C8: a handshake-request or handshake-ack whose destination is not
the local peer is ignored: the state is returned unchanged and no effect
is produced. -/
theorem control_not_addressed_ignored (src dst : MulticastPeer)
    (s : ReliableMulticast) (hne : dst ≠ s.local_peer_) :
    syn_received src dst s = (s, []) ∧
    synack_received src dst s = (s, []) := by
  constructor
  · unfold syn_received
    rw [if_pos hne]
  · unfold synack_received
    rw [if_pos hne]

/-- Witness for control_not_addressed_ignored: messages destined for
peer 9 are ignored by the link whose local peer is 1. -/
theorem control_not_addressed_ignored_witness :
    syn_received 5 9 stEx = (stEx, []) ∧
    synack_received 5 9 stEx = (stEx, []) :=
  control_not_addressed_ignored 5 9 stEx (by decide)

/-- C9: running the expire phase twice in immediate succession, with no
new ledger entries, no new arrivals and no tracker change in between,
changes nothing and performs no skip (and no effect at all) on the
second run. -/
theorem expire_naks_idempotent (now : TimeValue) (s : ReliableMulticast) :
    expire_naks now (expire_naks now s).1 = ((expire_naks now s).1, []) := by
  have hnil : expiredOf now (expire_naks now s).1 = [] := by
    unfold expiredOf
    rw [expire_naks_history_eq now s, expire_naks_config_eq now s]
    exact filter_le_of_filter_gt _ _
  generalize hgen : (expire_naks now s).1 = t
  rw [hgen] at hnil
  unfold expire_naks
  rw [hnil]
  rfl

/-- C10: a handshake-request addressed to the local peer from a sender
already present in the sequence map leaves the entire link state
unchanged (std::map insert never overwrites a present entry) while the
handshake-ack is still sent back. -/
theorem syn_received_keeps_known (sender : MulticastPeer)
    (s : ReliableMulticast) (ds : DisjointSequence)
    (hknown : SequenceMap.find s.sequences_ sender = some ds) :
    (syn_received sender s.local_peer_ s).1 = s ∧
    (syn_received sender s.local_peer_ s).2 =
      [Event.sendControl (ControlMsg.synack s.local_peer_ sender)] := by
  have hins : SequenceMap.insertIfAbsent s.sequences_ sender
      (DisjointSequence.ofBaseline s.recvd_header_.sequence_) = s.sequences_ :=
    insertIfAbsent_of_found _ _ ds _ hknown
  unfold syn_received
  rw [if_neg (not_not_intro rfl)]
  constructor
  · show ({ s with sequences_ := SequenceMap.insertIfAbsent s.sequences_ sender (DisjointSequence.ofBaseline s.recvd_header_.sequence_) } : ReliableMulticast) = s
    rw [hins]
  · rfl

/-- Witness for syn_received_keeps_known: peer 7 is already tracked by
stEx, so a repeated handshake-request leaves stEx intact and only the
handshake-ack goes out. -/
theorem syn_received_keeps_known_witness :
    (syn_received 7 stEx.local_peer_ stEx).1 = stEx ∧
    (syn_received 7 stEx.local_peer_ stEx).2 =
      [Event.sendControl (ControlMsg.synack stEx.local_peer_ 7)] :=
  syn_received_keeps_known 7 stEx dsGap rfl

end RM
